import Mathlib

/-
Shallow embedding of the ball-maze physics engine of src/js/script.js.

JavaScript numbers are modelled as real numbers.  All functions below are
direct translations of the correspondingly named functions of the source;
`getAngleJS` additionally models the IEEE-754 double behaviour of the
source function getAngle at its singular inputs (a vertical direction
yields atan of an infinite quotient, a zero-length direction yields atan
of NaN, modelled as Option.none).
-/

namespace MazeSim

noncomputable section

open Classical

/-- Corridor width constant of the source (pixels). -/
def pathWidth : ℝ := 30

/-- Wall thickness constant of the source (pixels). -/
def wallWidth : ℝ := 10

/-- Ball diameter constant of the source (pixels). -/
def ballSize : ℝ := 10

/-- Per-axis velocity cap declared inside the main loop of the source. -/
def maxVelocity : ℝ := 0.25

/-- Embedding of Math.minmax of the source: clamp a value into the
symmetric range given by limit. -/
def minmax (value limit : ℝ) : ℝ := max (min value limit) (-limit)

/-- Embedding of the JavaScript builtin Math.sign on real arguments. -/
def jsign (x : ℝ) : ℝ := if 0 < x then 1 else if x < 0 then -1 else 0

/-- Embedding of distance2D of the source: Euclidean distance between two
points given as pairs. -/
def distance2D (p1 p2 : ℝ × ℝ) : ℝ :=
  Real.sqrt ((p2.1 - p1.1) ^ 2 + (p2.2 - p1.2) ^ 2)

/-- Embedding of getAngle of the source: arctangent of the slope of the
segment from p1 to p2, plus a half turn when p2 lies to the left of p1.
Exact for p2.x different from p1.x; at equal x coordinates the JavaScript
division yields an infinity or NaN, refined below by getAngleJS. -/
def getAngle (p1 p2 : ℝ × ℝ) : ℝ :=
  if p2.1 - p1.1 < 0 then Real.arctan ((p2.2 - p1.2) / (p2.1 - p1.1)) + Real.pi
  else Real.arctan ((p2.2 - p1.2) / (p2.1 - p1.1))

/-- Refinement of getAngle recording the IEEE-754 behaviour of the source
at the singular inputs: when the x coordinates are equal the JavaScript
quotient is an infinity (arctangent a quarter turn) or, for coincident
points, NaN (modelled as none).  Agrees with getAngle elsewhere. -/
def getAngleJS (p1 p2 : ℝ × ℝ) : Option ℝ :=
  if p2.1 - p1.1 = 0 then
    if p2.2 - p1.2 > 0 then some (Real.pi / 2)
    else if p2.2 - p1.2 < 0 then some (-(Real.pi / 2))
    else none
  else some (getAngle p1 p2)

/-- Ball record of the source: committed position and velocity. -/
structure Ball where
  x : ℝ
  y : ℝ
  velocityX : ℝ
  velocityY : ℝ

/-- Transient ball state used during the collision pass of one tick; the
source stores nextX and nextY on the same mutable object. -/
structure BallT where
  x : ℝ
  y : ℝ
  velocityX : ℝ
  velocityY : ℝ
  nextX : ℝ
  nextY : ℝ

/-- Wall record of the source after pixel conversion. -/
structure Wall where
  x : ℝ
  y : ℝ
  horizontal : Bool
  length : ℝ

/-- Embedding of closestItCanBe of the source: the nearest position to a
wall cap that the ball may occupy. -/
def closestItCanBe (cap ball : ℝ × ℝ) : ℝ × ℝ :=
  (cap.1 + Real.cos (getAngle cap ball) * (wallWidth / 2 + ballSize / 2),
   cap.2 + Real.sin (getAngle cap ball) * (wallWidth / 2 + ballSize / 2))

/-- Embedding of rollAroundCap of the source: deflection of a ball around
a circular wall cap.  Output position equals the input position; the
velocity fields are overwritten with the offset towards the deflected
next position. -/
def rollAroundCap (cap : ℝ × ℝ) (ball : Ball) : BallT :=
  let impactAngle := getAngle (ball.x, ball.y) cap
  let heading := getAngle (0, 0) (ball.velocityX, ball.velocityY)
  let impactHeadingAngle := impactAngle - heading
  let velocityMagnitude := distance2D (0, 0) (ball.velocityX, ball.velocityY)
  let velocityMagnitudeDiagonalToTheImpact := Real.sin impactHeadingAngle * velocityMagnitude
  let closestDistance := wallWidth / 2 + ballSize / 2
  let rotationAngle := Real.arctan (velocityMagnitudeDiagonalToTheImpact / closestDistance)
  let deltaFromCapX := Real.cos (impactAngle + Real.pi - rotationAngle) * closestDistance
  let deltaFromCapY := Real.sin (impactAngle + Real.pi - rotationAngle) * closestDistance
  let velocityX := ball.x - (cap.1 + deltaFromCapX)
  let velocityY := ball.y - (cap.2 + deltaFromCapY)
  ⟨ball.x, ball.y, velocityX, velocityY, ball.x + velocityX, ball.y + velocityY⟩

/-- Embedding of slow of the source: reduce the magnitude of a number by
difference without crossing zero. -/
def slow (number difference : ℝ) : ℝ :=
  if |number| ≤ difference then 0
  else if number > difference then number - difference
  else number + difference

/-- Velocity update of the x axis performed by the main loop: friction
only on a flat axis, else integrate the change, hard-clamp to the range
one point five, subtract directed friction and clamp to maxVelocity. -/
def updateVelocityX (v velocityChange frictionDelta : ℝ) : ℝ :=
  if velocityChange = 0 then slow v frictionDelta
  else
    minmax (max (min (v + velocityChange) 1.5) (-1.5) - jsign velocityChange * frictionDelta)
      maxVelocity

/-- Velocity update of the y axis performed by the main loop; the source
has no intermediate hard clamp on this axis. -/
def updateVelocityY (v velocityChange frictionDelta : ℝ) : ℝ :=
  if velocityChange = 0 then slow v frictionDelta
  else minmax (v + velocityChange - jsign velocityChange * frictionDelta) maxVelocity

/-- Broad-phase strip test of a horizontal wall. -/
def hStripCond (w : Wall) (s : BallT) : Prop :=
  s.nextY + ballSize / 2 ≥ w.y - wallWidth / 2 ∧ s.nextY - ballSize / 2 ≤ w.y + wallWidth / 2

/-- Cap resolution performed by the main loop: place the ball at the
closest legal point to the cap and roll it around the cap, overwriting
all six fields of the transient state. -/
def capResolve (cap : ℝ × ℝ) (s : BallT) : BallT :=
  rollAroundCap cap
    ⟨(closestItCanBe cap (s.nextX, s.nextY)).1, (closestItCanBe cap (s.nextX, s.nextY)).2,
      s.velocityX, s.velocityY⟩

/-- Outer test of the left cap of a horizontal wall. -/
def hCapLeftCond (w : Wall) (s : BallT) : Prop :=
  s.nextX + ballSize / 2 ≥ w.x - wallWidth / 2 ∧ s.nextX < w.x

/-- Distance test of the left cap of a horizontal wall. -/
def hCapLeftNear (w : Wall) (s : BallT) : Prop :=
  distance2D (w.x, w.y) (s.nextX, s.nextY) < ballSize / 2 + wallWidth / 2

/-- Left-cap stage of a horizontal wall. -/
def hCapLeft (w : Wall) (s : BallT) : BallT :=
  if hCapLeftCond w s then
    if hCapLeftNear w s then capResolve (w.x, w.y) s else s
  else s

/-- Outer test of the right cap of a horizontal wall. -/
def hCapRightCond (w : Wall) (s : BallT) : Prop :=
  s.nextX - ballSize / 2 ≤ w.x + w.length + wallWidth / 2 ∧ s.nextX > w.x + w.length

/-- Distance test of the right cap of a horizontal wall. -/
def hCapRightNear (w : Wall) (s : BallT) : Prop :=
  distance2D (w.x + w.length, w.y) (s.nextX, s.nextY) < ballSize / 2 + wallWidth / 2

/-- Right-cap stage of a horizontal wall. -/
def hCapRight (w : Wall) (s : BallT) : BallT :=
  if hCapRightCond w s then
    if hCapRightNear w s then capResolve (w.x + w.length, w.y) s else s
  else s

/-- Body stage of a horizontal wall: push the ball out perpendicular to
the wall, commit the pushed position and invert and dampen the
perpendicular velocity. -/
def hBody (w : Wall) (s : BallT) : BallT :=
  if s.nextX ≥ w.x ∧ s.nextX ≤ w.x + w.length then
    let ny := if s.nextY < w.y then w.y - wallWidth / 2 - ballSize / 2
              else w.y + wallWidth / 2 + ballSize / 2
    { s with nextY := ny, y := ny, velocityY := -s.velocityY / 6 }
  else s

/-- Broad-phase strip test of a vertical wall. -/
def vStripCond (w : Wall) (s : BallT) : Prop :=
  s.nextX + ballSize / 2 ≥ w.x - wallWidth / 2 ∧ s.nextX - ballSize / 2 ≤ w.x + wallWidth / 2

/-- Outer test of the top cap of a vertical wall. -/
def vCapTopCond (w : Wall) (s : BallT) : Prop :=
  s.nextY + ballSize / 2 ≥ w.y - wallWidth / 2 ∧ s.nextY < w.y

/-- Distance test of the top cap of a vertical wall. -/
def vCapTopNear (w : Wall) (s : BallT) : Prop :=
  distance2D (w.x, w.y) (s.nextX, s.nextY) < ballSize / 2 + wallWidth / 2

/-- Top-cap stage of a vertical wall. -/
def vCapTop (w : Wall) (s : BallT) : BallT :=
  if vCapTopCond w s then
    if vCapTopNear w s then capResolve (w.x, w.y) s else s
  else s

/-- Outer test of the bottom cap of a vertical wall. -/
def vCapBottomCond (w : Wall) (s : BallT) : Prop :=
  s.nextY - ballSize / 2 ≤ w.y + w.length + wallWidth / 2 ∧ s.nextY > w.y + w.length

/-- Distance test of the bottom cap of a vertical wall. -/
def vCapBottomNear (w : Wall) (s : BallT) : Prop :=
  distance2D (w.x, w.y + w.length) (s.nextX, s.nextY) < ballSize / 2 + wallWidth / 2

/-- Bottom-cap stage of a vertical wall. -/
def vCapBottom (w : Wall) (s : BallT) : BallT :=
  if vCapBottomCond w s then
    if vCapBottomNear w s then capResolve (w.x, w.y + w.length) s else s
  else s

/-- Body stage of a vertical wall. -/
def vBody (w : Wall) (s : BallT) : BallT :=
  if s.nextY ≥ w.y ∧ s.nextY ≤ w.y + w.length then
    let nx := if s.nextX < w.x then w.x - wallWidth / 2 - ballSize / 2
              else w.x + wallWidth / 2 + ballSize / 2
    { s with nextX := nx, x := nx, velocityX := -s.velocityX / 6 }
  else s

/-- One wall of the collision pass of the main loop, in source order:
strip test, then the two cap stages, then the body stage, each stage
reading the state left by the previous stage. -/
def wallStep (w : Wall) (s : BallT) : BallT :=
  if w.horizontal then
    if hStripCond w s then hBody w (hCapRight w (hCapLeft w s)) else s
  else
    if vStripCond w s then vBody w (vCapBottom w (vCapTop w s)) else s

/-- Velocity-integration phase of one tick of one ball, producing the
transient state with the tentative next position. -/
def phase1 (cx cy fdx fdy : ℝ) (b : Ball) : BallT :=
  let vx := updateVelocityX b.velocityX cx fdx
  let vy := updateVelocityY b.velocityY cy fdy
  ⟨b.x, b.y, vx, vy, b.x + vx, b.y + vy⟩

/-- One tick of one ball: integrate velocity, fold the collision pass
over the wall list in order, then commit the final position by adding the
resulting velocity. -/
def tickBall (ws : List Wall) (cx cy fdx fdy : ℝ) (b : Ball) : Ball :=
  let s := List.foldl (fun s w => wallStep w s) (phase1 cx cy fdx fdy b) ws
  ⟨s.x + s.velocityX, s.y + s.velocityY, s.velocityX, s.velocityY⟩

/-- Grid-to-pixel wall conversion of the source. -/
def mkWall (column row : ℝ) (horizontal : Bool) (length : ℝ) : Wall :=
  { x := column * (pathWidth + wallWidth), y := row * (pathWidth + wallWidth),
    horizontal := horizontal, length := length * (pathWidth + wallWidth) }

/-- The static wall list of the source, in source order. -/
def walls : List Wall :=
  [ mkWall 0 0 true 10, mkWall 0 0 false 10, mkWall 0 10 true 10, mkWall 10 0 false 10,
    mkWall 0 1 true 1, mkWall 0 2 true 1, mkWall 0 7 true 1,
    mkWall 1 1 true 1, mkWall 1 2 true 1, mkWall 1 6 true 1, mkWall 1 9 true 1,
    mkWall 2 1 true 1, mkWall 2 4 true 1, mkWall 2 6 true 1, mkWall 2 9 true 1,
    mkWall 3 3 true 1, mkWall 3 7 true 1, mkWall 3 9 true 1,
    mkWall 4 3 true 1, mkWall 4 8 true 1,
    mkWall 5 2 true 1, mkWall 5 7 true 1,
    mkWall 6 1 true 1, mkWall 6 2 true 1, mkWall 6 6 true 1,
    mkWall 7 3 true 1, mkWall 7 6 true 1, mkWall 7 7 true 1,
    mkWall 8 1 true 1, mkWall 8 4 true 1, mkWall 8 7 true 1,
    mkWall 9 4 true 1, mkWall 9 9 true 1,
    mkWall 5 0 false 1, mkWall 8 0 false 1,
    mkWall 3 1 false 1, mkWall 5 1 false 1, mkWall 7 1 false 1, mkWall 9 1 false 1,
    mkWall 3 2 false 1, mkWall 7 2 false 1,
    mkWall 2 3 false 1, mkWall 3 3 false 1, mkWall 7 3 false 1, mkWall 9 3 false 1,
    mkWall 4 4 false 1, mkWall 8 4 false 1,
    mkWall 1 5 false 1, mkWall 8 5 false 1, mkWall 9 5 false 1,
    mkWall 1 6 false 1, mkWall 3 6 false 1, mkWall 5 6 false 1, mkWall 6 6 false 1,
    mkWall 9 6 false 1,
    mkWall 7 7 false 1,
    mkWall 1 8 false 1, mkWall 4 8 false 1, mkWall 5 8 false 1, mkWall 7 8 false 1,
    mkWall 8 8 false 1,
    mkWall 8 9 false 1 ]

/-- Simulation state of the source: the ball list, the running flag, the
timestamp baseline and the sensor reading, which is undefined until the
orientation handler has produced acceleration and friction values. -/
structure GameState where
  balls : List Ball
  gameInProgress : Bool
  previousTimestamp : Option ℝ
  sensor : Option (ℝ × ℝ × ℝ × ℝ)

/-- The ball list produced by the physics section of one call of main:
unchanged unless both a timestamp baseline and a sensor reading exist. -/
def mainBalls (timestamp : ℝ) (g : GameState) : List Ball :=
  match g.previousTimestamp, g.sensor with
  | some prev, some (ax, ay, fx, fy) =>
      let timeElapsed := (timestamp - prev) / 16
      g.balls.map (tickBall walls (ax * timeElapsed) (ay * timeElapsed)
        (fx * timeElapsed) (fy * timeElapsed))
  | _, _ => g.balls

/-- Win condition of the source: every ball within half of seventy-five
pixels of the centre of the four-hundred-pixel maze. -/
def wonCond (bs : List Ball) : Prop :=
  ∀ b ∈ bs, distance2D (b.x, b.y) (400 / 2, 400 / 2) < 75 / 2

/-- Embedding of main of the source: no effect unless the game runs, the
first call only records the timestamp baseline, later calls move the
balls, then either stop the game on a win or store the new baseline. -/
def main (timestamp : ℝ) (g : GameState) : GameState :=
  if g.gameInProgress then
    match g.previousTimestamp with
    | none => { g with previousTimestamp := some timestamp }
    | some _ =>
        let bs := mainBalls timestamp g
        if wonCond bs then { g with balls := bs, gameInProgress := false }
        else { g with balls := bs, previousTimestamp := some timestamp }
  else g

/-- The four initial balls created by resetGame of the source. -/
def resetBalls : List Ball :=
  [((0 : ℝ), (0 : ℝ)), (9, 0), (0, 9), (9, 9)].map fun cr =>
    ⟨cr.1 * (wallWidth + pathWidth) + (wallWidth / 2 + pathWidth / 2),
     cr.2 * (wallWidth + pathWidth) + (wallWidth / 2 + pathWidth / 2), 0, 0⟩

/-- Embedding of resetGame of the source: clear the timestamp baseline,
stop the game, clear the sensor reading and restore the four corner
balls. -/
def resetGame (_ : GameState) : GameState :=
  { balls := resetBalls, gameInProgress := false, previousTimestamp := none, sensor := none }

/-- The cap-hit condition of one wall during the collision pass: some cap
stage of this wall overwrites the ball state, the second stage judged on
the state left by the first. -/
def capHitWall (w : Wall) (s : BallT) : Prop :=
  if w.horizontal then
    hStripCond w s ∧ ((hCapLeftCond w s ∧ hCapLeftNear w s) ∨
      (hCapRightCond w (hCapLeft w s) ∧ hCapRightNear w (hCapLeft w s)))
  else
    vStripCond w s ∧ ((vCapTopCond w s ∧ vCapTopNear w s) ∨
      (vCapBottomCond w (vCapTop w s) ∧ vCapBottomNear w (vCapTop w s)))

/-- Whether any cap resolution fires while folding the collision pass
over a wall list from a given transient state. -/
def CapHitDuring : List Wall → BallT → Prop
  | [], _ => False
  | w :: ws, s => capHitWall w s ∨ CapHitDuring ws (wallStep w s)

/-- Transcription of the formula chain of the specification for
rollAroundCap, used to compare the source against the specification. -/
def rollAroundCapSpec (cap : ℝ × ℝ) (ball : Ball) : BallT :=
  let impactAngle := getAngle (ball.x, ball.y) cap
  let heading := getAngle (0, 0) (ball.velocityX, ball.velocityY)
  let rotationAngle :=
    Real.arctan (Real.sin (impactAngle - heading) *
      distance2D (0, 0) (ball.velocityX, ball.velocityY) / (wallWidth / 2 + ballSize / 2))
  let deltaFromCapX := Real.cos (impactAngle + Real.pi - rotationAngle) * (wallWidth / 2 + ballSize / 2)
  let deltaFromCapY := Real.sin (impactAngle + Real.pi - rotationAngle) * (wallWidth / 2 + ballSize / 2)
  let velocityX := ball.x - (cap.1 + deltaFromCapX)
  let velocityY := ball.y - (cap.2 + deltaFromCapY)
  ⟨ball.x, ball.y, velocityX, velocityY, ball.x + velocityX, ball.y + velocityY⟩

/-- Transcription of the per-axis velocity update chain claimed by the
specification for a tilted axis: integrate, hard-clamp to the range one
point five, subtract directed friction, clamp to maxVelocity. -/
def axisUpdateSpec (v velocityChange frictionDelta : ℝ) : ℝ :=
  minmax (max (min (v + velocityChange) 1.5) (-1.5) - jsign velocityChange * frictionDelta)
    maxVelocity


/-- The walls preceding the vertical wall of column five row zero in the
source order: the border and all horizontal walls. -/
def c5pre : List Wall :=
  [ mkWall 0 0 true 10, mkWall 0 0 false 10, mkWall 0 10 true 10, mkWall 10 0 false 10,
    mkWall 0 1 true 1, mkWall 0 2 true 1, mkWall 0 7 true 1,
    mkWall 1 1 true 1, mkWall 1 2 true 1, mkWall 1 6 true 1, mkWall 1 9 true 1,
    mkWall 2 1 true 1, mkWall 2 4 true 1, mkWall 2 6 true 1, mkWall 2 9 true 1,
    mkWall 3 3 true 1, mkWall 3 7 true 1, mkWall 3 9 true 1,
    mkWall 4 3 true 1, mkWall 4 8 true 1,
    mkWall 5 2 true 1, mkWall 5 7 true 1,
    mkWall 6 1 true 1, mkWall 6 2 true 1, mkWall 6 6 true 1,
    mkWall 7 3 true 1, mkWall 7 6 true 1, mkWall 7 7 true 1,
    mkWall 8 1 true 1, mkWall 8 4 true 1, mkWall 8 7 true 1,
    mkWall 9 4 true 1, mkWall 9 9 true 1 ]

/-- The walls following the vertical wall of column five row zero in the
source order: all remaining vertical walls. -/
def c5post : List Wall :=
  [ mkWall 8 0 false 1,
    mkWall 3 1 false 1, mkWall 5 1 false 1, mkWall 7 1 false 1, mkWall 9 1 false 1,
    mkWall 3 2 false 1, mkWall 7 2 false 1,
    mkWall 2 3 false 1, mkWall 3 3 false 1, mkWall 7 3 false 1, mkWall 9 3 false 1,
    mkWall 4 4 false 1, mkWall 8 4 false 1,
    mkWall 1 5 false 1, mkWall 8 5 false 1, mkWall 9 5 false 1,
    mkWall 1 6 false 1, mkWall 3 6 false 1, mkWall 5 6 false 1, mkWall 6 6 false 1,
    mkWall 9 6 false 1,
    mkWall 7 7 false 1,
    mkWall 1 8 false 1, mkWall 4 8 false 1, mkWall 5 8 false 1, mkWall 7 8 false 1,
    mkWall 8 8 false 1,
    mkWall 8 9 false 1 ]

/-- Concrete transient state for the cap-collision counterexample. -/
def c4state : BallT := ⟨201.75, 234.75, 0.25, 0.25, 202, 235⟩

/-- Result of resolving c4state against the top cap of the vertical wall
at column five row six. -/
def c4hit : BallT := capResolve (200, 240) c4state

/-- Abbreviation: the square root appearing in the impact angle. -/
def c4Q : ℝ := Real.sqrt (29 / 4)

/-- Abbreviation: the rotation angle tangent. -/
def c4T : ℝ := 7 / (80 * c4Q)

/-- Abbreviation: the square root appearing in the rotation angle. -/
def c4U : ℝ := Real.sqrt (1 + c4T ^ 2)

/-- Closed form of the position of the resolved state. -/
def c4X : ℝ := 200 + 10 / c4Q

/-- Closed form of the vertical position of the resolved state. -/
def c4Y : ℝ := 240 - 25 / c4Q

/-- Closed form of the offset velocity of the resolved state. -/
def c4VX : ℝ := 10 / c4Q - 10 * ((1 - 5 / 2 * c4T) / (c4Q * c4U))

/-- Closed form of the vertical offset velocity of the resolved state. -/
def c4VY : ℝ := -(25 / c4Q) + 10 * ((5 / 2 + c4T) / (c4Q * c4U))

/-- The walls preceding the vertical wall of column five row six in the
source order. -/
def c4pre : List Wall :=
  [ mkWall 0 0 true 10, mkWall 0 0 false 10, mkWall 0 10 true 10, mkWall 10 0 false 10,
    mkWall 0 1 true 1, mkWall 0 2 true 1, mkWall 0 7 true 1,
    mkWall 1 1 true 1, mkWall 1 2 true 1, mkWall 1 6 true 1, mkWall 1 9 true 1,
    mkWall 2 1 true 1, mkWall 2 4 true 1, mkWall 2 6 true 1, mkWall 2 9 true 1,
    mkWall 3 3 true 1, mkWall 3 7 true 1, mkWall 3 9 true 1,
    mkWall 4 3 true 1, mkWall 4 8 true 1,
    mkWall 5 2 true 1, mkWall 5 7 true 1,
    mkWall 6 1 true 1, mkWall 6 2 true 1, mkWall 6 6 true 1,
    mkWall 7 3 true 1, mkWall 7 6 true 1, mkWall 7 7 true 1,
    mkWall 8 1 true 1, mkWall 8 4 true 1, mkWall 8 7 true 1,
    mkWall 9 4 true 1, mkWall 9 9 true 1,
    mkWall 5 0 false 1, mkWall 8 0 false 1,
    mkWall 3 1 false 1, mkWall 5 1 false 1, mkWall 7 1 false 1, mkWall 9 1 false 1,
    mkWall 3 2 false 1, mkWall 7 2 false 1,
    mkWall 2 3 false 1, mkWall 3 3 false 1, mkWall 7 3 false 1, mkWall 9 3 false 1,
    mkWall 4 4 false 1, mkWall 8 4 false 1,
    mkWall 1 5 false 1, mkWall 8 5 false 1, mkWall 9 5 false 1,
    mkWall 1 6 false 1, mkWall 3 6 false 1 ]

/-- The walls following the vertical wall of column five row six in the
source order. -/
def c4post : List Wall :=
  [ mkWall 6 6 false 1, mkWall 9 6 false 1,
    mkWall 7 7 false 1,
    mkWall 1 8 false 1, mkWall 4 8 false 1, mkWall 5 8 false 1, mkWall 7 8 false 1,
    mkWall 8 8 false 1,
    mkWall 8 9 false 1 ]

end

end MazeSim

namespace MazeSim

set_option maxHeartbeats 4000000
set_option maxRecDepth 100000

/-- Helper: slow returns zero when the magnitude is within the friction step. -/
theorem slow_eq_zero {v d : ℝ} (h : |v| ≤ d) : slow v d = 0 := by
  unfold slow
  rw [if_pos h]

/-- Helper: slow reduces the magnitude by exactly the friction step when the
magnitude exceeds it and the step is positive. -/
theorem slow_abs {v d : ℝ} (hd : 0 < d) (h : d < |v|) : |slow v d| = |v| - d := by
  unfold slow
  rw [if_neg (not_le.mpr h)]
  rcases le_or_lt v 0 with hv | hv
  · have hvn : v < -d := by
      rcases abs_cases v with ⟨he, _⟩ | ⟨he, _⟩ <;> [skip; linarith]
      · exfalso; rw [he] at h; linarith
    rw [if_neg (by linarith)]
    rw [abs_of_neg (by linarith), abs_of_neg (by linarith)]
    ring
  · have hvp : d < v := by
      rcases abs_cases v with ⟨he, _⟩ | ⟨he, _⟩ <;> [skip; linarith]
      · rw [he] at h; exact h
    rw [if_pos hvp, abs_of_pos (by linarith), abs_of_pos hv]

/-- Helper: slow keeps a positive value positive when the step is smaller
than the magnitude. -/
theorem slow_pos {v d : ℝ} (h : d < |v|) (hv : 0 < v) : 0 < slow v d := by
  unfold slow
  rw [abs_of_pos hv] at h
  rw [if_neg (by rw [abs_of_pos hv]; linarith), if_pos h]
  linarith

/-- Helper: slow keeps a negative value negative when the step is smaller
than the magnitude. -/
theorem slow_neg {v d : ℝ} (hd : 0 < d) (h : d < |v|) (hv : v < 0) : slow v d < 0 := by
  unfold slow
  rw [abs_of_neg hv] at h
  rw [if_neg (by rw [abs_of_neg hv]; linarith), if_neg (by linarith)]
  linarith

/-- Helper: enough iterations of slow reach exactly zero. -/
theorem slow_iter_eq_zero {d : ℝ} (hd : 0 < d) :
    ∀ n : ℕ, ∀ v : ℝ, |v| ≤ n * d → (fun w => slow w d)^[n] v = 0 := by
  intro n
  induction n with
  | zero =>
      intro v hv
      simp only [Nat.cast_zero, zero_mul] at hv
      have h0 : v = 0 := abs_nonpos_iff.mp hv
      simp [h0, slow_eq_zero]
  | succ n ih =>
      intro v hv
      rw [Function.iterate_succ_apply]
      rcases le_or_lt (|v|) d with hle | hlt
      · rw [slow_eq_zero hle]
        exact ih 0 (by simp; positivity)
      · have h1 : |slow v d| ≤ n * d := by
          rw [slow_abs hd hlt]
          push_cast at hv ⊢
          linarith
        exact ih (slow v d) h1

/-- Claim C2.  rollAroundCap computes exactly the formula chain of the
specification: the impact angle, the heading, the rotation angle from the
tangential velocity component, the new offset from the cap, the position
passed through unchanged and the velocity rewritten as the offset to the
next tentative position. -/
theorem claim2_rollAroundCap_formula (cap : ℝ × ℝ) (ball : Ball) :
    rollAroundCap cap ball = rollAroundCapSpec cap ball := rfl

/-- Claim C3, counterexample.  On the y axis the source omits the
intermediate hard clamp into the range of one point five: with velocity
2.9, velocity change 0.1 and friction delta 1.4 the source yields 0.25
while the claimed formula chain yields 0.1. -/
theorem claim3_counterexample :
    updateVelocityY 2.9 0.1 1.4 = 0.25 ∧ axisUpdateSpec 2.9 0.1 1.4 = 0.1 ∧
      updateVelocityY 2.9 0.1 1.4 ≠ axisUpdateSpec 2.9 0.1 1.4 := by
  norm_num [updateVelocityY, axisUpdateSpec, jsign, minmax, maxVelocity, max_def, min_def]

/-- Claim C3, amended.  On a tick with non-zero velocity change the x axis
follows the claimed chain with the intermediate hard clamp, while the y
axis adds the change, subtracts directed friction and clamps to
maxVelocity without the intermediate hard clamp. -/
theorem claim3_amended (v c fd : ℝ) (hc : c ≠ 0) :
    updateVelocityX v c fd = axisUpdateSpec v c fd ∧
      updateVelocityY v c fd = minmax (v + c - jsign c * fd) maxVelocity := by
  constructor
  · unfold updateVelocityX axisUpdateSpec
    rw [if_neg hc]
  · unfold updateVelocityY
    rw [if_neg hc]

/-- Claim C3, witness for the amended statement at a concrete input. -/
theorem claim3_witness :
    updateVelocityX 0.1 0.05 0 = axisUpdateSpec 0.1 0.05 0 ∧
      updateVelocityY 0.1 0.05 0 = minmax (0.1 + 0.05 - jsign 0.05 * 0) maxVelocity :=
  claim3_amended 0.1 0.05 0 (by norm_num)

/-- Helper: evaluation of the zero-gravity tick of claim C6 on the full
wall list. -/
theorem c6_tick_eval :
    (tickBall walls 0 0 0.01 0.01 ⟨200, 200, 0.2, 0⟩).velocityX = 0.19 := by
  norm_num [tickBall, walls, phase1, updateVelocityX, updateVelocityY, slow, jsign, minmax,
    maxVelocity, mkWall, pathWidth, wallWidth, ballSize, List.foldl, wallStep,
    hStripCond, vStripCond, hCapLeft, hCapRight, hBody, vCapTop, vCapBottom, vBody,
    hCapLeftCond, hCapRightCond, vCapTopCond, vCapBottomCond, abs_eq_max_neg, max_def, min_def]

/-- Claim C6.  slow is zero once the magnitude is within the step,
otherwise reduces the magnitude by exactly the step preserving the sign,
iterating it reaches exactly zero, and a zero-gravity tick of the full
simulation with velocity 0.2 and friction delta 0.01 leaves velocity 0.19
with no overshoot. -/
theorem claim6_slow_props :
    (∀ v d : ℝ, 0 < d →
      ((|v| ≤ d → slow v d = 0) ∧
        (d < |v| → |slow v d| = |v| - d ∧ (0 < v → 0 < slow v d) ∧ (v < 0 → slow v d < 0)) ∧
        (∃ n : ℕ, (fun w => slow w d)^[n] v = 0))) ∧
    (tickBall walls 0 0 0.01 0.01 ⟨200, 200, 0.2, 0⟩).velocityX = 0.19 ∧
    0 ≤ (tickBall walls 0 0 0.01 0.01 ⟨200, 200, 0.2, 0⟩).velocityX := by
  refine ⟨fun v d hd => ⟨fun h => slow_eq_zero h,
    fun h => ⟨slow_abs hd h, fun hv => slow_pos h hv, fun hv => slow_neg hd h hv⟩, ?_⟩, ?_, ?_⟩
  · obtain ⟨n, hn⟩ := exists_nat_ge (|v| / d)
    exact ⟨n, slow_iter_eq_zero hd n v ((div_le_iff₀ hd).mp hn)⟩
  · exact c6_tick_eval
  · rw [c6_tick_eval]; norm_num

/-- Claim C6, witness at a concrete input. -/
theorem claim6_witness : slow 0.5 1 = 0 :=
  ((claim6_slow_props.1 0.5 1 (by norm_num)).1
    (by rw [abs_of_pos] <;> norm_num))

/-- Claim C8.  resetGame, from any state, places the four balls at the
pixel centres of the four corner cells with zero velocity and returns the
simulation to the idle state: not running, no timestamp baseline, no
sensor reading. -/
theorem claim8_reset (g : GameState) :
    resetGame g =
      { balls := [⟨20, 20, 0, 0⟩, ⟨380, 20, 0, 0⟩, ⟨20, 380, 0, 0⟩, ⟨380, 380, 0, 0⟩],
        gameInProgress := false, previousTimestamp := none, sensor := none } := by
  unfold resetGame resetBalls
  norm_num [wallWidth, pathWidth]

/-- Claim C9, counterexample.  Feeding two coincident points to getAngle,
as the heading computation does for a zero-length velocity vector, the
JavaScript source computes the arctangent of zero divided by zero, which
is NaN and not a well-defined real number. -/
theorem claim9_counterexample :
    getAngleJS ((0 : ℝ), (0 : ℝ)) ((0 : ℝ), (0 : ℝ)) = none := by
  simp [getAngleJS]

/-- Claim C9, amended.  For two points with equal x coordinates and
distinct y coordinates getAngle yields the well-defined quarter-turn
values, matching the arctangent of an infinite quotient; for coincident
points it yields NaN, modelled as none. -/
theorem claim9_amended (p1 p2 : ℝ × ℝ) (hx : p1.1 = p2.1) :
    (p1.2 < p2.2 → getAngleJS p1 p2 = some (Real.pi / 2)) ∧
    (p2.2 < p1.2 → getAngleJS p1 p2 = some (-(Real.pi / 2))) ∧
    (p1.2 = p2.2 → getAngleJS p1 p2 = none) := by
  have hdx : p2.1 - p1.1 = 0 := by rw [hx]; ring
  unfold getAngleJS
  rw [if_pos hdx]
  refine ⟨fun h => ?_, fun h => ?_, fun h => ?_⟩
  · rw [if_pos (by linarith)]
  · rw [if_neg (by linarith), if_pos (by linarith)]
  · rw [if_neg (by linarith), if_neg (by linarith)]

/-- Claim C9, witness for the amended statement at a concrete input. -/
theorem claim9_witness : getAngleJS ((0 : ℝ), (0 : ℝ)) ((0 : ℝ), (1 : ℝ)) = some (Real.pi / 2) :=
  (claim9_amended ((0 : ℝ), (0 : ℝ)) ((0 : ℝ), (1 : ℝ)) rfl).1 (by norm_num)


/-- Helper: main does nothing when the game is not running. -/
theorem main_not_running (ts : ℝ) (g : GameState) (h : g.gameInProgress = false) :
    main ts g = g := by
  unfold main
  rw [h]
  simp

/-- Helper: the first running call of main only records the timestamp
baseline. -/
theorem main_warmup (ts : ℝ) (g : GameState) (h1 : g.gameInProgress = true)
    (h2 : g.previousTimestamp = none) :
    main ts g = { g with previousTimestamp := some ts } := by
  unfold main
  rw [h1, h2]
  simp

/-- Helper: a running call of main with a timestamp baseline always
stores the moved ball list, whichever win branch is taken. -/
theorem main_balls_run (ts p : ℝ) (g : GameState) (h1 : g.gameInProgress = true)
    (h2 : g.previousTimestamp = some p) :
    (main ts g).balls = mainBalls ts g := by
  unfold main
  rw [h1, h2]
  simp only [if_true]
  split <;> rfl

/-- Claim C7.  Whenever a running tick with a timestamp baseline finds
all balls within half of seventy-five pixels of the maze centre at the
win check, the game stops running, the moved balls are committed, and
every later call of main leaves the whole state, in particular every
ball position and velocity, unchanged. -/
theorem claim7_win_stops (g : GameState) (ts p : ℝ)
    (h1 : g.gameInProgress = true) (h2 : g.previousTimestamp = some p)
    (h3 : wonCond (mainBalls ts g)) :
    (main ts g).gameInProgress = false ∧ (main ts g).balls = mainBalls ts g ∧
      ∀ t2 : ℝ, main t2 (main ts g) = main ts g := by
  have hm : main ts g = { g with balls := mainBalls ts g, gameInProgress := false } := by
    unfold main
    rw [h1, h2]
    simp only [if_true]
    rw [if_pos h3]
  refine ⟨by rw [hm], by rw [hm], fun t2 => ?_⟩
  rw [hm]
  exact main_not_running t2 _ rfl

/-- Claim C7, witness: a concrete running state with all four balls at
the maze centre and no sensor reading stops on the next call of main. -/
theorem claim7_witness :
    (main 16 ⟨[⟨200, 200, 0, 0⟩, ⟨200, 200, 0, 0⟩, ⟨200, 200, 0, 0⟩, ⟨200, 200, 0, 0⟩],
        true, some 0, none⟩).gameInProgress = false := by
  refine (claim7_win_stops _ 16 0 rfl rfl ?_).1
  intro b hb
  simp only [mainBalls, List.mem_cons, List.not_mem_nil, or_false] at hb
  rcases hb with rfl | rfl | rfl | rfl <;>
    · show Real.sqrt _ < _
      norm_num [Real.sqrt_zero]

/-- Claim C10.  Within one call of main, the resulting state of the ball
at any index depends only on that ball and the shared inputs: two games
agreeing on the running flag, the timestamp baseline, the sensor reading
and the ball at that index produce the same ball at that index, whatever
the other balls are. -/
theorem claim10_noninterference (g1 g2 : GameState) (ts : ℝ) (i : ℕ)
    (hgp : g1.gameInProgress = g2.gameInProgress)
    (hpt : g1.previousTimestamp = g2.previousTimestamp)
    (hsn : g1.sensor = g2.sensor)
    (hb : g1.balls[i]? = g2.balls[i]?) :
    (main ts g1).balls[i]? = (main ts g2).balls[i]? := by
  have hmb : (mainBalls ts g1)[i]? = (mainBalls ts g2)[i]? := by
    unfold mainBalls
    rw [← hpt, ← hsn]
    cases hp : g1.previousTimestamp with
    | none => exact hb
    | some prev =>
        cases hs : g1.sensor with
        | none => exact hb
        | some quad =>
            obtain ⟨ax, ay, fx, fy⟩ := quad
            simp only [List.getElem?_map, hb]
  cases hg : g1.gameInProgress with
  | false =>
      rw [main_not_running ts g1 hg, main_not_running ts g2 (by rw [← hgp]; exact hg)]
      exact hb
  | true =>
      cases hp : g1.previousTimestamp with
      | none =>
          rw [main_warmup ts g1 hg hp, main_warmup ts g2 (by rw [← hgp]; exact hg)
            (by rw [← hpt]; exact hp)]
          exact hb
      | some p =>
          rw [main_balls_run ts p g1 hg hp, main_balls_run ts p g2 (by rw [← hgp]; exact hg)
            (by rw [← hpt]; exact hp)]
          exact hmb

/-- Claim C10, witness: two concrete games differing only in the second
ball agree on the first ball after a call of main. -/
theorem claim10_witness :
    (main 0 ⟨[⟨20, 20, 0, 0⟩, ⟨380, 20, 0, 0⟩], true, none, none⟩).balls[0]? =
      (main 0 ⟨[⟨20, 20, 0, 0⟩, ⟨77, 5, 1, 1⟩], true, none, none⟩).balls[0]? :=
  claim10_noninterference _ _ 0 0 rfl rfl rfl rfl


/-- Helper: a horizontal wall whose strip test fails leaves the state
unchanged. -/
theorem wallStep_h_skip (w : Wall) (s : BallT) (hw : w.horizontal = true)
    (h : s.nextY - ballSize / 2 > w.y + wallWidth / 2 ∨
      s.nextY + ballSize / 2 < w.y - wallWidth / 2) :
    wallStep w s = s := by
  have hns : ¬ hStripCond w s := by
    unfold hStripCond
    rcases h with h | h
    · rintro ⟨-, hb⟩; linarith
    · rintro ⟨ha, -⟩; linarith
  unfold wallStep
  rw [hw, if_pos rfl, if_neg hns]

/-- Helper: a vertical wall whose strip test fails leaves the state
unchanged. -/
theorem wallStep_v_skip (w : Wall) (s : BallT) (hw : w.horizontal = false)
    (h : s.nextX - ballSize / 2 > w.x + wallWidth / 2 ∨
      s.nextX + ballSize / 2 < w.x - wallWidth / 2) :
    wallStep w s = s := by
  have hns : ¬ vStripCond w s := by
    unfold vStripCond
    rcases h with h | h
    · rintro ⟨-, hb⟩; linarith
    · rintro ⟨ha, -⟩; linarith
  unfold wallStep
  rw [hw, if_neg Bool.false_ne_true, if_neg hns]

/-- Helper: a vertical wall none of whose cap or body outer tests hold
leaves the state unchanged. -/
theorem wallStep_v_inert (w : Wall) (s : BallT) (hw : w.horizontal = false)
    (h1 : ¬ vCapTopCond w s) (h2 : ¬ vCapBottomCond w s)
    (h3 : ¬ (s.nextY ≥ w.y ∧ s.nextY ≤ w.y + w.length)) :
    wallStep w s = s := by
  have e1 : vCapTop w s = s := by unfold vCapTop; rw [if_neg h1]
  have e2 : vCapBottom w s = s := by unfold vCapBottom; rw [if_neg h2]
  have e3 : vBody w s = s := by unfold vBody; rw [if_neg h3]
  unfold wallStep
  rw [hw, if_neg Bool.false_ne_true]
  by_cases hs : vStripCond w s
  · rw [if_pos hs, e1, e2, e3]
  · rw [if_neg hs]

/-- Helper: a horizontal wall none of whose cap or body outer tests hold
leaves the state unchanged. -/
theorem wallStep_h_inert (w : Wall) (s : BallT) (hw : w.horizontal = true)
    (h1 : ¬ hCapLeftCond w s) (h2 : ¬ hCapRightCond w s)
    (h3 : ¬ (s.nextX ≥ w.x ∧ s.nextX ≤ w.x + w.length)) :
    wallStep w s = s := by
  have e1 : hCapLeft w s = s := by unfold hCapLeft; rw [if_neg h1]
  have e2 : hCapRight w s = s := by unfold hCapRight; rw [if_neg h2]
  have e3 : hBody w s = s := by unfold hBody; rw [if_neg h3]
  unfold wallStep
  rw [hw, if_pos rfl]
  by_cases hs : hStripCond w s
  · rw [if_pos hs, e1, e2, e3]
  · rw [if_neg hs]

/-- Helper: the collision fold leaves a state fixed by every wall of the
list unchanged. -/
theorem foldl_wallStep_fixed (ws : List Wall) (s : BallT)
    (h : ∀ w ∈ ws, wallStep w s = s) :
    List.foldl (fun s w => wallStep w s) s ws = s := by
  induction ws with
  | nil => rfl
  | cons w ws ih =>
      rw [List.foldl_cons]
      show List.foldl _ (wallStep w s) ws = s
      rw [h w (List.mem_cons_self w ws)]
      exact ih fun w2 hw2 => h w2 (List.mem_cons_of_mem w hw2)

/-- The wall list split at the vertical wall of column five row zero. -/
theorem walls_c5_split : walls = c5pre ++ mkWall 5 0 false 1 :: c5post := rfl

/-- Claim C5, counterexample.  A concrete ball with velocity 0.3 towards
the vertical wall at pixel two hundred, whose tentative next position
lies inside the wall strip and span, finishes the tick at 189.95, not at
the claimed resting position 190: the final commit re-adds the inverted
velocity after the body resolution already wrote the position. -/
theorem claim5_counterexample :
    (tickBall walls 0 0 0 0 ⟨190.5, 20, 0.3, 0⟩).x = 189.95 ∧
      (tickBall walls 0 0 0 0 ⟨190.5, 20, 0.3, 0⟩).velocityX = -0.05 ∧
      (189.95 : ℝ) ≠ 200 - wallWidth / 2 - ballSize / 2 := by
  have h : (tickBall walls 0 0 0 0 ⟨190.5, 20, 0.3, 0⟩).x = 189.95 ∧
      (tickBall walls 0 0 0 0 ⟨190.5, 20, 0.3, 0⟩).velocityX = -0.05 := by
    norm_num [tickBall, walls, phase1, updateVelocityX, updateVelocityY, slow, jsign, minmax,
      maxVelocity, mkWall, pathWidth, wallWidth, ballSize, List.foldl, wallStep,
      hStripCond, vStripCond, hCapLeft, hCapRight, hBody, vCapTop, vCapBottom, vBody,
      hCapLeftCond, hCapRightCond, vCapTopCond, vCapBottomCond, abs_eq_max_neg, max_def, min_def]
  exact ⟨h.1, h.2, by norm_num [wallWidth, ballSize]⟩

/-- Claim C5, amended.  On a flat frictionless tick, any ball moving with
velocity 0.3 rightward whose tentative next position enters the strip of
the vertical wall at pixel two hundred from the left, away from the caps,
is set to the resting position 190 with velocity inverted and dampened to
minus 0.05 by the body resolution, and the final commit then re-adds that
velocity, leaving the tick at 189.95, a nudge beyond the resting
position. -/
theorem claim5_amended (x0 y0 : ℝ) (h1 : 190 ≤ x0 + 0.3) (h2 : x0 + 0.3 < 200)
    (h3 : 10 < y0) (h4 : y0 < 30) :
    tickBall walls 0 0 0 0 ⟨x0, y0, 0.3, 0⟩ = ⟨189.95, y0, -0.05, 0⟩ := by
  have hs0 : phase1 0 0 0 0 ⟨x0, y0, 0.3, 0⟩ = ⟨x0, y0, 0.3, 0, x0 + 0.3, y0⟩ := by
    norm_num [phase1, updateVelocityX, updateVelocityY, slow, abs_eq_max_neg, max_def, min_def]
  have hpre : List.foldl (fun s w => wallStep w s) ⟨x0, y0, 0.3, 0, x0 + 0.3, y0⟩ c5pre =
      ⟨x0, y0, 0.3, 0, x0 + 0.3, y0⟩ := by
    apply foldl_wallStep_fixed
    intro w hw
    simp only [c5pre, List.mem_cons, List.not_mem_nil, or_false] at hw
    rcases hw with rfl | rfl | rfl | rfl | rfl | rfl | rfl | rfl | rfl | rfl | rfl | rfl | rfl |
      rfl | rfl | rfl | rfl | rfl | rfl | rfl | rfl | rfl | rfl | rfl | rfl | rfl | rfl | rfl |
      rfl | rfl | rfl | rfl | rfl <;>
      first
        | exact wallStep_h_skip _ _ rfl (by
            simp only [mkWall, pathWidth, wallWidth, ballSize]
            first | (left; linarith) | (right; linarith))
        | exact wallStep_v_skip _ _ rfl (by
            simp only [mkWall, pathWidth, wallWidth, ballSize]
            first | (left; linarith) | (right; linarith))
  have hhit : wallStep (mkWall 5 0 false 1) ⟨x0, y0, 0.3, 0, x0 + 0.3, y0⟩ =
      ⟨190, y0, -0.05, 0, 190, y0⟩ := by
    unfold wallStep
    rw [show (mkWall 5 0 false 1).horizontal = false from rfl, if_neg Bool.false_ne_true]
    rw [if_pos (by
      unfold vStripCond
      simp only [mkWall, pathWidth, wallWidth, ballSize]
      constructor <;> linarith)]
    unfold vCapTop
    rw [if_neg (by
      unfold vCapTopCond
      simp only [mkWall, pathWidth, wallWidth, ballSize]
      rintro ⟨-, hb⟩; linarith)]
    unfold vCapBottom
    rw [if_neg (by
      unfold vCapBottomCond
      simp only [mkWall, pathWidth, wallWidth, ballSize]
      rintro ⟨-, hb⟩; linarith)]
    unfold vBody
    rw [if_pos (by
      simp only [mkWall, pathWidth, wallWidth, ballSize]
      constructor <;> [linarith; linarith])]
    rw [if_pos (by
      simp only [mkWall, pathWidth, wallWidth, ballSize]
      show x0 + 0.3 < 5 * (30 + 10)
      linarith)]
    simp only [mkWall, pathWidth, wallWidth, ballSize]
    norm_num
  have hpost : List.foldl (fun s w => wallStep w s) ⟨190, y0, -0.05, 0, 190, y0⟩ c5post =
      ⟨190, y0, -0.05, 0, 190, y0⟩ := by
    apply foldl_wallStep_fixed
    intro w hw
    simp only [c5post, List.mem_cons, List.not_mem_nil, or_false] at hw
    rcases hw with rfl | rfl | rfl | rfl | rfl | rfl | rfl | rfl | rfl | rfl | rfl | rfl | rfl |
      rfl | rfl | rfl | rfl | rfl | rfl | rfl | rfl | rfl | rfl | rfl | rfl | rfl | rfl | rfl <;>
      first
        | exact wallStep_v_skip _ _ rfl (by
            simp only [mkWall, pathWidth, wallWidth, ballSize]
            first | (left; linarith) | (right; linarith))
        | exact wallStep_v_inert _ _ rfl
            (by
              unfold vCapTopCond
              simp only [mkWall, pathWidth, wallWidth, ballSize]
              rintro ⟨ha, hb⟩; linarith)
            (by
              unfold vCapBottomCond
              simp only [mkWall, pathWidth, wallWidth, ballSize]
              rintro ⟨ha, hb⟩; linarith)
            (by
              simp only [mkWall, pathWidth, wallWidth, ballSize]
              rintro ⟨ha, hb⟩; linarith)
  show (let s := List.foldl (fun s w => wallStep w s) (phase1 0 0 0 0 ⟨x0, y0, 0.3, 0⟩) walls
    (⟨s.x + s.velocityX, s.y + s.velocityY, s.velocityX, s.velocityY⟩ : Ball)) =
      ⟨189.95, y0, -0.05, 0⟩
  rw [hs0, walls_c5_split, List.foldl_append, hpre, List.foldl_cons]
  show (let s := List.foldl _ (wallStep (mkWall 5 0 false 1) ⟨x0, y0, 0.3, 0, x0 + 0.3, y0⟩) c5post
    (⟨s.x + s.velocityX, s.y + s.velocityY, s.velocityX, s.velocityY⟩ : Ball)) = _
  rw [hhit, hpost]
  norm_num

/-- Claim C5, witness for the amended statement at a concrete input. -/
theorem claim5_witness :
    tickBall walls 0 0 0 0 ⟨190.2, 20, 0.3, 0⟩ = ⟨189.95, 20, -0.05, 0⟩ :=
  claim5_amended 190.2 20 (by norm_num) (by norm_num) (by norm_num) (by norm_num)

end MazeSim

namespace MazeSim

noncomputable section

open Classical

set_option maxHeartbeats 4000000
set_option maxRecDepth 100000

theorem c4Q_pos : 0 < c4Q := Real.sqrt_pos.mpr (by norm_num)

theorem c4Q_sq : c4Q ^ 2 = 29 / 4 := Real.sq_sqrt (by norm_num)

theorem c4Q_lb : 2 ≤ c4Q := by
  nlinarith [c4Q_sq, c4Q_pos]

theorem c4Q_ub : c4Q ≤ 3 := by
  nlinarith [c4Q_sq, c4Q_pos]

theorem c4T_pos : 0 < c4T := by
  unfold c4T
  have := c4Q_pos
  positivity

theorem c4T_ub : c4T ≤ 7 / 160 := by
  unfold c4T
  rw [div_le_div_iff₀ (by nlinarith [c4Q_pos]) (by norm_num)]
  nlinarith [c4Q_lb]

theorem c4U_pos : 0 < c4U := Real.sqrt_pos.mpr (by nlinarith [sq_nonneg c4T])

theorem c4U_sq : c4U ^ 2 = 1 + c4T ^ 2 := Real.sq_sqrt (by nlinarith [sq_nonneg c4T])

theorem c4U_lb : 1 ≤ c4U := by
  nlinarith [c4U_sq, c4U_pos, sq_nonneg c4T]

theorem c4U_ub : c4U ≤ 1.1 := by
  nlinarith [c4U_sq, c4U_pos, c4T_ub, c4T_pos]

theorem c4hit_eval : c4hit = ⟨c4X, c4Y, c4VX, c4VY, c4X + c4VX, c4Y + c4VY⟩ := by
  have hQne : c4Q ≠ 0 := ne_of_gt c4Q_pos
  have hUne : c4U ≠ 0 := ne_of_gt c4U_pos
  have hs2 : (0 : ℝ) < Real.sqrt 2 := Real.sqrt_pos.mpr (by norm_num)
  have hang1 : getAngle ((200 : ℝ), (240 : ℝ)) ((202 : ℝ), (235 : ℝ)) =
      Real.arctan (-(5 / 2)) := by
    unfold getAngle
    rw [if_neg (by norm_num)]
    norm_num
  have hcos1 : Real.cos (Real.arctan (-(5 / 2))) = 1 / c4Q := by
    rw [Real.cos_arctan]
    norm_num [c4Q]
  have hsin1 : Real.sin (Real.arctan (-(5 / 2))) = -(5 / 2) / c4Q := by
    rw [Real.sin_arctan]
    norm_num [c4Q]
  have hclosest : closestItCanBe ((200 : ℝ), (240 : ℝ)) ((202 : ℝ), (235 : ℝ)) =
      (200 + 10 / c4Q, 240 - 25 / c4Q) := by
    unfold closestItCanBe
    rw [hang1, hcos1, hsin1, Prod.mk.injEq]
    norm_num [wallWidth, ballSize]
    constructor
    · field_simp
    · field_simp
      ring
  have himp : getAngle ((200 + 10 / c4Q : ℝ), (240 - 25 / c4Q : ℝ)) ((200 : ℝ), (240 : ℝ)) =
      Real.arctan (-(5 / 2)) + Real.pi := by
    unfold getAngle
    rw [if_pos (by
      have he : (200 : ℝ) - (200 + 10 / c4Q) = -(10 / c4Q) := by ring
      rw [he, neg_lt, neg_zero]
      exact div_pos (by norm_num) c4Q_pos)]
    congr 2
    field_simp
    ring
  have hhead : getAngle ((0 : ℝ), (0 : ℝ)) ((0.25 : ℝ), (0.25 : ℝ)) = Real.pi / 4 := by
    unfold getAngle
    rw [if_neg (by norm_num)]
    norm_num [Real.arctan_one]
  have hmag : distance2D ((0 : ℝ), (0 : ℝ)) ((0.25 : ℝ), (0.25 : ℝ)) = Real.sqrt (1 / 8) := by
    unfold distance2D
    norm_num
  have hsinIH : Real.sin (Real.arctan (-(5 / 2)) + Real.pi - Real.pi / 4) =
      7 * Real.sqrt 2 / (4 * c4Q) := by
    rw [Real.sin_sub, Real.sin_add_pi, Real.cos_add_pi, hsin1, hcos1,
      Real.cos_pi_div_four, Real.sin_pi_div_four]
    field_simp
    ring
  have h8 : Real.sqrt (1 / 8) = 1 / (2 * Real.sqrt 2) := by
    rw [show (1 / 8 : ℝ) = (1 / (2 * Real.sqrt 2)) ^ 2 by
      rw [div_pow, mul_pow, Real.sq_sqrt (by norm_num : (0 : ℝ) ≤ 2)]
      norm_num]
    exact Real.sqrt_sq (by positivity)
  have hrot : 7 * Real.sqrt 2 / (4 * c4Q) * Real.sqrt (1 / 8) / (wallWidth / 2 + ballSize / 2) =
      c4T := by
    rw [h8, show wallWidth / 2 + ballSize / 2 = (10 : ℝ) by norm_num [wallWidth, ballSize]]
    unfold c4T
    have h22 : Real.sqrt 2 * Real.sqrt 2 = 2 := Real.mul_self_sqrt (by norm_num)
    field_simp
    ring
  have hcosR : Real.cos (Real.arctan c4T) = 1 / c4U := by
    rw [Real.cos_arctan]
    norm_num [c4U]
  have hsinR : Real.sin (Real.arctan c4T) = c4T / c4U := by
    rw [Real.sin_arctan]
    norm_num [c4U]
  have hargD : Real.arctan (-(5 / 2)) + Real.pi + Real.pi - Real.arctan c4T =
      (Real.arctan (-(5 / 2)) - Real.arctan c4T) + 2 * Real.pi := by ring
  have hcosD : Real.cos (Real.arctan (-(5 / 2)) + Real.pi + Real.pi - Real.arctan c4T) =
      (1 - 5 / 2 * c4T) / (c4Q * c4U) := by
    rw [hargD, Real.cos_add_two_pi, Real.cos_sub, hcos1, hsin1, hcosR, hsinR]
    field_simp
    ring
  have hsinD : Real.sin (Real.arctan (-(5 / 2)) + Real.pi + Real.pi - Real.arctan c4T) =
      -((5 / 2 + c4T) / (c4Q * c4U)) := by
    rw [hargD, Real.sin_add_two_pi, Real.sin_sub, hcos1, hsin1, hcosR, hsinR]
    field_simp
    ring
  show capResolve (200, 240) c4state = _
  unfold capResolve c4state
  simp only
  rw [hclosest]
  unfold rollAroundCap
  simp only
  rw [himp, hhead, hmag, hsinIH, hrot, hcosD, hsinD]
  rw [show wallWidth / 2 + ballSize / 2 = (10 : ℝ) by norm_num [wallWidth, ballSize]]
  simp only [BallT.mk.injEq]
  unfold c4X c4Y c4VX c4VY
  refine ⟨by ring, by ring, by ring, by ring, by ring, by ring⟩

theorem c4VX_key : c4VX * (29 * c4U) = 40 * c4Q * (c4U - 1) + 35 / 4 := by
  have hQU : 4 * c4Q ^ 2 * c4U = 29 * c4U := by rw [c4Q_sq]; ring
  have hkey : c4VX * (4 * c4Q ^ 2 * c4U) = 40 * c4Q * (c4U - 1) + 35 / 4 := by
    have hQne : c4Q ≠ 0 := ne_of_gt c4Q_pos
    have hUne : c4U ≠ 0 := ne_of_gt c4U_pos
    unfold c4VX c4T
    field_simp
    ring
  rw [hQU] at hkey
  exact hkey

theorem c4VX_gt : 1 / 4 < c4VX := by
  nlinarith [c4VX_key, c4U_lb, c4U_ub, c4Q_pos, c4U_pos, c4Q_ub,
    mul_nonneg (le_of_lt c4Q_pos) (sub_nonneg.mpr c4U_lb)]

theorem c4VX_ub : c4VX ≤ 3 / 4 := by
  nlinarith [c4VX_key, c4U_lb, c4U_ub, c4Q_pos, c4U_pos, c4Q_ub,
    mul_nonneg (le_of_lt c4Q_pos) (sub_nonneg.mpr c4U_lb)]

theorem c4invQ_bounds : 10 / 3 ≤ 10 / c4Q ∧ 10 / c4Q ≤ 5 := by
  constructor
  · rw [div_le_div_iff₀ (by norm_num) c4Q_pos]
    nlinarith [c4Q_ub]
  · rw [div_le_iff₀ c4Q_pos]
    nlinarith [c4Q_lb]

theorem c4nextX_bounds : 196 ≤ c4X + c4VX ∧ c4X + c4VX ≤ 208 := by
  have h1 := c4invQ_bounds
  have h2 := c4VX_gt
  have h3 := c4VX_ub
  unfold c4X
  constructor <;> linarith [h1.1, h1.2]

theorem c4nextY_lt : c4Y + c4VY < 240 := by
  have hkey : (c4Y + c4VY) * (4 * c4Q ^ 2 * c4U) =
      960 * c4Q ^ 2 * c4U - 200 * c4Q * c4U + 100 * c4Q + 7 / 2 := by
    have hQne : c4Q ≠ 0 := ne_of_gt c4Q_pos
    have hUne : c4U ≠ 0 := ne_of_gt c4U_pos
    unfold c4Y c4VY c4T
    field_simp
    ring
  have hQU : 4 * c4Q ^ 2 * c4U = 29 * c4U := by rw [c4Q_sq]; ring
  have hQ2 : 960 * c4Q ^ 2 * c4U = 6960 * c4U := by rw [c4Q_sq]; ring
  rw [hQU, hQ2] at hkey
  nlinarith [hkey, c4U_lb, c4U_ub, c4Q_pos, c4U_pos, c4Q_lb, c4Q_ub,
    mul_le_mul c4Q_ub c4U_ub (le_of_lt c4U_pos) (by norm_num),
    mul_nonneg (le_of_lt c4Q_pos) (le_of_lt c4U_pos)]

/-- The wall list split at the vertical wall of column five row six. -/
theorem walls_c4_split : walls = c4pre ++ mkWall 5 6 false 1 :: c4post := rfl

theorem c4_hpre : List.foldl (fun s w => wallStep w s) c4state c4pre = c4state := by
  norm_num [c4pre, c4state, List.foldl, wallStep, mkWall, pathWidth, wallWidth, ballSize,
    hStripCond, vStripCond, hCapLeft, hCapRight, hBody, vCapTop, vCapBottom, vBody,
    hCapLeftCond, hCapRightCond, vCapTopCond, vCapBottomCond]

theorem c4_hhit : wallStep (mkWall 5 6 false 1) c4state = c4hit := by
  unfold wallStep
  rw [show (mkWall 5 6 false 1).horizontal = false from rfl, if_neg Bool.false_ne_true]
  rw [if_pos (by
    unfold vStripCond c4state
    simp only [mkWall, pathWidth, wallWidth, ballSize]
    norm_num)]
  unfold vCapTop
  rw [if_pos (by
    unfold vCapTopCond c4state
    simp only [mkWall, pathWidth, wallWidth, ballSize]
    norm_num)]
  rw [if_pos (by
    unfold vCapTopNear c4state distance2D
    simp only [mkWall, pathWidth, wallWidth, ballSize]
    rw [show ((202 : ℝ) - 5 * (30 + 10)) ^ 2 + (235 - 6 * (30 + 10)) ^ 2 = 29 by norm_num]
    rw [show (10 : ℝ) / 2 + 10 / 2 = 10 by norm_num]
    exact (Real.sqrt_lt' (by norm_num)).mpr (by norm_num))]
  rw [show (((mkWall 5 6 false 1).x, (mkWall 5 6 false 1).y) : ℝ × ℝ) = ((200 : ℝ), (240 : ℝ))
    from by simp [mkWall, pathWidth, wallWidth]; norm_num]
  show vBody _ (vCapBottom _ c4hit) = c4hit
  have hY := c4nextY_lt
  have hnextY : c4hit.nextY = c4Y + c4VY := by rw [c4hit_eval]
  have h1 : vCapBottom (mkWall 5 6 false 1) c4hit = c4hit := by
    unfold vCapBottom
    rw [if_neg (by
      unfold vCapBottomCond
      simp only [mkWall, pathWidth, wallWidth, ballSize]
      rintro ⟨-, hb⟩
      rw [hnextY] at hb
      norm_num at hb
      linarith)]
  rw [h1]
  unfold vBody
  rw [if_neg (by
    simp only [mkWall, pathWidth, wallWidth, ballSize]
    rintro ⟨ha, -⟩
    rw [hnextY] at ha
    norm_num at ha
    linarith)]

theorem c4_hpost : List.foldl (fun s w => wallStep w s) c4hit c4post = c4hit := by
  have hnX : c4hit.nextX = c4X + c4VX := by rw [c4hit_eval]
  have hnY : c4hit.nextY = c4Y + c4VY := by rw [c4hit_eval]
  have hXb := c4nextX_bounds
  have hYb := c4nextY_lt
  apply foldl_wallStep_fixed
  intro w hw
  simp only [c4post, List.mem_cons, List.not_mem_nil, or_false] at hw
  rcases hw with rfl | rfl | rfl | rfl | rfl | rfl | rfl | rfl | rfl <;>
    first
      | exact wallStep_v_skip _ _ rfl (by
          simp only [mkWall, pathWidth, wallWidth, ballSize]
          rw [hnX]
          first
            | (left; linarith [hXb.1, hXb.2])
            | (right; linarith [hXb.1, hXb.2]))
      | exact wallStep_v_inert _ _ rfl
          (by
            unfold vCapTopCond
            simp only [mkWall, pathWidth, wallWidth, ballSize]
            rw [hnY]
            rintro ⟨ha, hb⟩
            linarith)
          (by
            unfold vCapBottomCond
            simp only [mkWall, pathWidth, wallWidth, ballSize]
            rw [hnY]
            rintro ⟨ha, hb⟩
            linarith)
          (by
            simp only [mkWall, pathWidth, wallWidth, ballSize]
            rw [hnY]
            rintro ⟨ha, hb⟩
            linarith)

/-- Claim C4, counterexample.  A tick with non-zero tilt on both axes in
which the ball hits the top cap of the vertical wall of column five row
six: the cap resolution overwrites the velocity with a positional offset
whose x component exceeds maxVelocity, so the tick ends with a velocity
magnitude above the cap. -/
theorem claim4_counterexample :
    maxVelocity < (tickBall walls 0.01 0.01 0 0 ⟨201.75, 234.75, 0.25, 0.25⟩).velocityX := by
  have hs0 : phase1 0.01 0.01 0 0 ⟨201.75, 234.75, 0.25, 0.25⟩ = c4state := by
    norm_num [phase1, c4state, updateVelocityX, updateVelocityY, jsign, minmax, maxVelocity,
      abs_eq_max_neg, max_def, min_def]
  have hfold : List.foldl (fun s w => wallStep w s)
      (phase1 0.01 0.01 0 0 ⟨201.75, 234.75, 0.25, 0.25⟩) walls = c4hit := by
    rw [hs0, walls_c4_split, List.foldl_append, c4_hpre, List.foldl_cons, c4_hhit, c4_hpost]
  show maxVelocity < (List.foldl (fun s w => wallStep w s)
      (phase1 0.01 0.01 0 0 ⟨201.75, 234.75, 0.25, 0.25⟩) walls).velocityX
  rw [hfold, c4hit_eval]
  show maxVelocity < c4VX
  have := c4VX_gt
  unfold maxVelocity
  linarith

theorem hCapLeft_id (w : Wall) (s : BallT) (h : ¬ (hCapLeftCond w s ∧ hCapLeftNear w s)) :
    hCapLeft w s = s := by
  unfold hCapLeft
  by_cases h1 : hCapLeftCond w s
  · rw [if_pos h1, if_neg fun h2 => h ⟨h1, h2⟩]
  · rw [if_neg h1]

theorem hCapRight_id (w : Wall) (s : BallT) (h : ¬ (hCapRightCond w s ∧ hCapRightNear w s)) :
    hCapRight w s = s := by
  unfold hCapRight
  by_cases h1 : hCapRightCond w s
  · rw [if_pos h1, if_neg fun h2 => h ⟨h1, h2⟩]
  · rw [if_neg h1]

theorem vCapTop_id (w : Wall) (s : BallT) (h : ¬ (vCapTopCond w s ∧ vCapTopNear w s)) :
    vCapTop w s = s := by
  unfold vCapTop
  by_cases h1 : vCapTopCond w s
  · rw [if_pos h1, if_neg fun h2 => h ⟨h1, h2⟩]
  · rw [if_neg h1]

theorem vCapBottom_id (w : Wall) (s : BallT) (h : ¬ (vCapBottomCond w s ∧ vCapBottomNear w s)) :
    vCapBottom w s = s := by
  unfold vCapBottom
  by_cases h1 : vCapBottomCond w s
  · rw [if_pos h1, if_neg fun h2 => h ⟨h1, h2⟩]
  · rw [if_neg h1]

theorem hBody_velocity (w : Wall) (s : BallT) :
    |(hBody w s).velocityX| ≤ |s.velocityX| ∧ |(hBody w s).velocityY| ≤ |s.velocityY| := by
  unfold hBody
  split_ifs with h1 h2
  all_goals try exact ⟨le_refl _, le_refl _⟩
  all_goals
    refine ⟨le_refl _, ?_⟩
    show |-s.velocityY / 6| ≤ |s.velocityY|
    rw [abs_div, abs_neg, show |(6 : ℝ)| = 6 from by norm_num]
    linarith [abs_nonneg s.velocityY]

theorem vBody_velocity (w : Wall) (s : BallT) :
    |(vBody w s).velocityX| ≤ |s.velocityX| ∧ |(vBody w s).velocityY| ≤ |s.velocityY| := by
  unfold vBody
  split_ifs with h1 h2
  all_goals try exact ⟨le_refl _, le_refl _⟩
  all_goals
    refine ⟨?_, le_refl _⟩
    show |-s.velocityX / 6| ≤ |s.velocityX|
    rw [abs_div, abs_neg, show |(6 : ℝ)| = 6 from by norm_num]
    linarith [abs_nonneg s.velocityX]

/-- Helper: a wall step in which no cap resolution fires never increases
the velocity magnitude of either axis, since the only remaining mutation
is the body stage dividing a component by minus six. -/
theorem wallStep_velocity_bound (w : Wall) (s : BallT) (h : ¬ capHitWall w s) :
    |(wallStep w s).velocityX| ≤ |s.velocityX| ∧ |(wallStep w s).velocityY| ≤ |s.velocityY| := by
  unfold wallStep
  split_ifs with hw hs hs
  · have hnl : ¬ (hCapLeftCond w s ∧ hCapLeftNear w s) := by
      intro hc
      apply h
      unfold capHitWall
      rw [if_pos hw]
      exact ⟨hs, Or.inl hc⟩
    have e1 : hCapLeft w s = s := hCapLeft_id w s hnl
    have hnr : ¬ (hCapRightCond w s ∧ hCapRightNear w s) := by
      intro hc
      apply h
      unfold capHitWall
      rw [if_pos hw]
      refine ⟨hs, Or.inr ?_⟩
      rw [e1]
      exact hc
    have e2 : hCapRight w s = s := hCapRight_id w s hnr
    rw [e1, e2]
    exact hBody_velocity w s
  · exact ⟨le_refl _, le_refl _⟩
  · have hnt : ¬ (vCapTopCond w s ∧ vCapTopNear w s) := by
      intro hc
      apply h
      unfold capHitWall
      rw [if_neg hw]
      exact ⟨hs, Or.inl hc⟩
    have e1 : vCapTop w s = s := vCapTop_id w s hnt
    have hnb : ¬ (vCapBottomCond w s ∧ vCapBottomNear w s) := by
      intro hc
      apply h
      unfold capHitWall
      rw [if_neg hw]
      refine ⟨hs, Or.inr ?_⟩
      rw [e1]
      exact hc
    have e2 : vCapBottom w s = s := vCapBottom_id w s hnb
    rw [e1, e2]
    exact vBody_velocity w s
  · exact ⟨le_refl _, le_refl _⟩

/-- Helper: a collision fold in which no cap resolution fires never
increases the velocity magnitude of either axis. -/
theorem foldl_velocity_bound (ws : List Wall) (s : BallT) (h : ¬ CapHitDuring ws s) :
    |(List.foldl (fun s w => wallStep w s) s ws).velocityX| ≤ |s.velocityX| ∧
      |(List.foldl (fun s w => wallStep w s) s ws).velocityY| ≤ |s.velocityY| := by
  induction ws generalizing s with
  | nil => exact ⟨le_refl _, le_refl _⟩
  | cons w ws ih =>
      simp only [CapHitDuring] at h
      have h1 : ¬ capHitWall w s := fun hc => h (Or.inl hc)
      have h2 : ¬ CapHitDuring ws (wallStep w s) := fun hc => h (Or.inr hc)
      have hb := wallStep_velocity_bound w s h1
      have hc := ih (wallStep w s) h2
      rw [List.foldl_cons]
      exact ⟨le_trans hc.1 hb.1, le_trans hc.2 hb.2⟩

theorem abs_minmax_le (v l : ℝ) (hl : 0 ≤ l) : |minmax v l| ≤ l := by
  unfold minmax
  rw [abs_le]
  exact ⟨le_max_right _ _, max_le (le_trans (min_le_right v l) (le_refl l)) (neg_le_self hl)⟩

theorem slow_abs_le (v fd : ℝ) (hfd : 0 ≤ fd) : |slow v fd| ≤ |v| := by
  unfold slow
  split_ifs with h1 h2
  · rw [abs_zero]
    exact abs_nonneg v
  · rw [abs_of_nonneg (by linarith), abs_of_pos (by linarith)]
    linarith
  · have hv : v < 0 := by
      by_contra hyp
      push_neg at hyp
      rw [abs_of_nonneg hyp] at h1
      push_neg at h1 h2
      linarith
    have hvd : fd < -v := by
      have := not_le.mp h1
      rw [abs_of_neg hv] at this
      linarith
    rw [abs_of_nonpos (by linarith), abs_of_neg hv]
    linarith

theorem updateVelocityX_abs (v c fd : ℝ) (hfd : 0 ≤ fd) :
    (c ≠ 0 → |updateVelocityX v c fd| ≤ maxVelocity) ∧
      (c = 0 → |updateVelocityX v c fd| ≤ |v|) := by
  constructor
  · intro hc
    unfold updateVelocityX
    rw [if_neg hc]
    exact abs_minmax_le _ _ (by norm_num [maxVelocity])
  · intro hc
    unfold updateVelocityX
    rw [if_pos hc]
    exact slow_abs_le v fd hfd

theorem updateVelocityY_abs (v c fd : ℝ) (hfd : 0 ≤ fd) :
    (c ≠ 0 → |updateVelocityY v c fd| ≤ maxVelocity) ∧
      (c = 0 → |updateVelocityY v c fd| ≤ |v|) := by
  constructor
  · intro hc
    unfold updateVelocityY
    rw [if_neg hc]
    exact abs_minmax_le _ _ (by norm_num [maxVelocity])
  · intro hc
    unfold updateVelocityY
    rw [if_pos hc]
    exact slow_abs_le v fd hfd

/-- Claim C4, amended.  On any tick of any wall list in which no cap
resolution fires, with nonnegative friction deltas, the velocity
magnitude of an axis with non-zero velocity change ends at most
maxVelocity and the velocity magnitude of a flat axis never exceeds its
previous value; a tick in which a cap resolution fires may instead
overwrite the velocity with a positional offset exceeding maxVelocity. -/
theorem claim4_amended (ws : List Wall) (cx cy fdx fdy : ℝ) (b : Ball)
    (hfx : 0 ≤ fdx) (hfy : 0 ≤ fdy)
    (hnc : ¬ CapHitDuring ws (phase1 cx cy fdx fdy b)) :
    ((cx ≠ 0 → |(tickBall ws cx cy fdx fdy b).velocityX| ≤ maxVelocity) ∧
      (cx = 0 → |(tickBall ws cx cy fdx fdy b).velocityX| ≤ |b.velocityX|)) ∧
    ((cy ≠ 0 → |(tickBall ws cx cy fdx fdy b).velocityY| ≤ maxVelocity) ∧
      (cy = 0 → |(tickBall ws cx cy fdx fdy b).velocityY| ≤ |b.velocityY|)) := by
  have hfold := foldl_velocity_bound ws (phase1 cx cy fdx fdy b) hnc
  have hux := updateVelocityX_abs b.velocityX cx fdx hfx
  have huy := updateVelocityY_abs b.velocityY cy fdy hfy
  exact ⟨⟨fun hc => le_trans hfold.1 (hux.1 hc), fun hc => le_trans hfold.1 (hux.2 hc)⟩,
    ⟨fun hc => le_trans hfold.2 (huy.1 hc), fun hc => le_trans hfold.2 (huy.2 hc)⟩⟩

/-- Claim C4, witness for the amended statement at a concrete input. -/
theorem claim4_witness :
    |(tickBall [] 0.1 0 0 0 ⟨0, 0, 0, 0⟩).velocityX| ≤ maxVelocity :=
  (claim4_amended [] 0.1 0 0 0 ⟨0, 0, 0, 0⟩ le_rfl le_rfl (by simp [CapHitDuring])).1.1
    (by norm_num)

end

end MazeSim
